import Mathlib

/-!
# Verification of the dbus-bytestream connection component

A shallow embedding of `src/connection.rs` from the `dbus-bytestream`
crate, together with proofs about the properties its specification
states.

Modelling conventions:

* Byte streams are `List Nat` (each element a byte value; arithmetic
  that depends on byte width is taken `% 256` / `% 2^32` explicitly).
* The blocking transport is modelled functionally: a read-side stream is
  a list of the bytes the peer will deliver before closing; reaching the
  end of the list is end-of-stream.  Writes are collected as a trace of
  `write_all` calls (a list of byte lists).
* Fallible Rust code returning `Result<_, Error>` becomes
  `Except Error _`.  A Rust panic (an `unwrap` on a decoder result) is a
  distinct `panicked` outcome, never silently collapsed into an error.
* The external collaborators (the `message`, `marshal`, `demarshal` and
  `dbus_serialize` crates) are not part of `src/`; where the connection
  code calls into them the definitions below are modelled from the
  spec's wire-format description and carry a doc comment saying so.
* The connection is modelled at two levels that mirror the two layers of
  the source: a message-level model (`ConnectionM`) for the queue /
  reply-correlation logic of `read_msg` and `call_sync`, in which the
  wire is abstracted as the list of messages it will deliver, and a
  byte-level model (`readMsgWire`, `send`) for the frame codec.
-/

deriving instance DecidableEq for Except

namespace DbusBytestream

/-- Decode errors of the external demarshal collaborator (`DemarshalError`
in the source).  Only the constructor the connection code names
explicitly (`BadSignature`) is distinguished; all other decode failures
are collapsed into `CorruptedData`. -/
inductive DemarshalErr where
  | BadSignature
  | CorruptedData
deriving DecidableEq

/-- The `Error` enum of `connection.rs`.  `IOError`, `AddressError` carry
causes in the source that no claim inspects, so they are payload-free
here. -/
inductive Error where
  | Disconnected
  | IOError
  | DemarshalError (e : DemarshalErr)
  | AddressError
  | BadData
  | AuthFailed
  | NoEnvironment
deriving DecidableEq

/-- The external D-Bus value type (`dbus_serialize::types::Value`),
restricted to the shapes the connection component ever constructs or
inspects: bytes, u32s, strings, signatures and variants.  Strings and
signatures carry their raw bytes. -/
inductive Value where
  | byte (n : Nat)
  | u32 (n : Nat)
  | str (bs : List Nat)
  | signature (bs : List Nat)
  | variant (v : Value)
deriving DecidableEq

/-- One D-Bus frame (`message::Message`).  The `headers` component
models the source's `HashMap<u8, Value>` as an association list with
unique keys (the `HashMap` cannot hold duplicate keys; well-formedness
is assumed where a proof needs it). -/
structure Message where
  big_endian : Bool
  message_type : Nat
  flags : Nat
  version : Nat
  serial : Nat
  headers : List (Nat × Value)
  body : List Value
deriving DecidableEq

/-- Lookup in the header map (`HashMap::get`). -/
def hmGet (m : List (Nat × Value)) (k : Nat) : Option Value :=
  match m with
  | [] => none
  | (k', v) :: rest => if k' = k then some v else hmGet rest k

/-- Removal from the header map (`HashMap::remove`): returns the removed
value, if any, and the map without that entry. -/
def hmRemove (m : List (Nat × Value)) (k : Nat) : Option Value × List (Nat × Value) :=
  match m with
  | [] => (none, [])
  | (k', v) :: rest =>
    if k' = k then (some v, rest)
    else
      let r := hmRemove rest k
      (r.1, (k', v) :: r.2)

/-- Insertion into the header map (`HashMap::insert`): a duplicate code
overwrites the earlier value. -/
def hmInsert (m : List (Nat × Value)) (k : Nat) (v : Value) : List (Nat × Value) :=
  match m with
  | [] => [(k, v)]
  | (k', v') :: rest => if k' = k then (k, v) :: rest else (k', v') :: hmInsert rest k v

/-- Modelled from the spec: the wire code of the `ReplySerial` header
field (`HeaderFieldName::ReplySerial` lives in the external `message`
module; the D-Bus wire format referenced by the spec assigns it code 5). -/
def replySerialCode : Nat := 5

/-- Modelled from the spec: the wire code of the `Signature` header
field (`HeaderFieldName::Signature`, code 8 in the D-Bus wire format). -/
def signatureCode : Nat := 8

/-- Message-level connection state: the FIFO queue of read-ahead
messages, and the wire abstracted as the list of frames the transport
will still deliver (in arrival order) before the peer closes. -/
structure ConnectionM where
  queue : List Message
  wire : List Message
deriving DecidableEq

/-- Message-level `Connection::read_msg` (connection.rs:309-313 for the
queue fast path): a non-empty queue is popped from the front with no
transport access; otherwise the next frame is taken from the wire, and
an exhausted wire is a disconnect. -/
def read_msg (c : ConnectionM) : Except Error (Message × ConnectionM) :=
  match c.queue with
  | m :: rest => .ok (m, { c with queue := rest })
  | [] =>
    match c.wire with
    | m :: rest => .ok (m, { c with wire := rest })
    | [] => .error Error.Disconnected

/-- The message after `msg.headers.remove(&(HeaderFieldName::ReplySerial as u8))`
has executed: the `ReplySerial` entry is gone, everything else is
untouched. -/
def stripReplySerial (m : Message) : Message :=
  { m with headers := (hmRemove m.headers replySerialCode).2 }

/-- Outcome of `call_sync`'s receive loop.  `panicked` models the
`unwrap()` on `DBusDecoder::decode::<u32>` firing when a `ReplySerial`
header holds a variant that is not a u32. -/
inductive CallResult (α : Type) where
  | ok (a : α)
  | err (e : Error)
  | panicked
deriving DecidableEq

/-- True when `call_sync`'s loop would examine `m` and requeue it
(its `ReplySerial` header is absent, is not a variant, or is a variant
of a u32 different from `serial`). -/
def skipsMatch (serial : Nat) (m : Message) : Bool :=
  match (hmRemove m.headers replySerialCode).1 with
  | some (Value.variant (Value.u32 rs)) => if rs = serial then false else true
  | some (Value.variant _) => false
  | _ => true

/-- True when `call_sync`'s loop would accept `m` as the reply with
serial `serial`. -/
def isReply (serial : Nat) (m : Message) : Bool :=
  match (hmRemove m.headers replySerialCode).1 with
  | some (Value.variant (Value.u32 rs)) => if rs = serial then true else false
  | _ => false

/-- The receive loop of `Connection::call_sync` (connection.rs:287-305),
started after `send` assigned `serial`.  `loc` is the local `queue`
vector of skipped messages.  Each iteration calls `read_msg`; the
`ReplySerial` header is removed from the message, and if it held a
variant whose u32 equals `serial` the loop returns the message body
after moving the local queue onto the connection queue with
`self.queue.push(queue.remove(0))` (an append to the back).  A variant
holding anything but a u32 makes the source panic. -/
def call_sync_loop (serial : Nat) (loc : List Message) (c : ConnectionM) :
    CallResult (List Value × ConnectionM) :=
  match _hres : read_msg c with
  | .error e => .err e
  | .ok (m, c') =>
    match (hmRemove m.headers replySerialCode).1 with
    | some (Value.variant x) =>
      match x with
      | Value.u32 rs =>
        if rs = serial then .ok (m.body, { c' with queue := c'.queue ++ loc })
        else call_sync_loop serial (loc ++ [stripReplySerial m]) c'
      | _ => .panicked
    | _ => call_sync_loop serial (loc ++ [stripReplySerial m]) c'
termination_by c.queue.length + c.wire.length
decreasing_by
  all_goals
    rcases c with ⟨q, w⟩
    rcases c' with ⟨q2, w2⟩
    rcases q with _ | ⟨m0, q'⟩ <;> rcases w with _ | ⟨m1, w'⟩ <;>
      simp_all [read_msg]

/-- The receive phase of `Connection::call_sync` on a message-level
connection, for a request that `send` assigned serial `serial`. -/
def call_sync_recv (serial : Nat) (c : ConnectionM) :
    CallResult (List Value × ConnectionM) :=
  call_sync_loop serial [] c

/-! ## Byte-level frame codec -/

/-- Value of one u32 assembled from four little-endian bytes. -/
def u32le (a b c d : Nat) : Nat :=
  a % 256 + 256 * (b % 256) + 65536 * (c % 256) + 16777216 * (d % 256)

/-- One more than the largest u32 value. -/
def UMAX : Nat := 4294967296

/-- Little-endian byte encoding of the low 32 bits of a natural number
(the external `u32::dbus_encode`). -/
def u32enc (n : Nat) : List Nat :=
  [n % 256, n / 256 % 256, n / 65536 % 256, n / 16777216 % 256]

/-- Read a little-endian u32 out of a buffer at byte index `i`
(missing bytes read as zero; the uses below are always in range). -/
def decodeU32At (buf : List Nat) (i : Nat) : Nat :=
  u32le (buf.getD i 0) (buf.getD (i + 1) 0) (buf.getD (i + 2) 0) (buf.getD (i + 3) 0)

/-- The helper `read_exactly` (connection.rs:85-92): ask the transport
for exactly `len` bytes; `sock.take(len).read_to_end` delivers
`min len available`, and anything short of `len` is `Disconnected`.
Returns the bytes read and the rest of the stream. -/
def read_exactly (s : List Nat) (len : Nat) : Except Error (List Nat × List Nat) :=
  if s.length < len then .error Error.Disconnected
  else .ok (s.take len, s.drop len)

/-- The helper `read_line` (connection.rs:94-112), one byte at a time
with the previously read byte tracked: accumulates bytes until a
`"\r\n"` pair, returning the whole line including the terminator and the
unread remainder; end-of-stream (or any read failure) before the
terminator is `Disconnected`.  `last` starts as the NUL byte. -/
def read_line_aux (acc : List Nat) (last : Nat) : List Nat → Except Error (List Nat × List Nat)
  | [] => .error Error.Disconnected
  | c :: rest =>
    if c = 10 ∧ last = 13 then .ok (acc ++ [c], rest)
    else read_line_aux (acc ++ [c]) c rest

/-- Entry point of `read_line`. -/
def read_line (s : List Nat) : Except Error (List Nat × List Nat) :=
  read_line_aux [] 0 s

/-! ## send -/

/-- Modelled from the spec: `message::get_length` of the external
`message` module reads the body-length field the builder embedded in
the outgoing buffer — the u32 at byte offset 4 of the fixed header
(little-endian), which at build time holds the cumulative header
length. -/
def get_length (msg : List Nat) : Nat := decodeU32At msg 4

/-- Modelled from the spec: `message::set_length` patches the 8 bytes
starting at offset 4 of the outgoing buffer — the body-length field
followed by the serial field — with the given replacement bytes. -/
def set_length (msg : List Nat) (patch : List Nat) : List Nat :=
  msg.take 4 ++ patch ++ msg.drop (4 + patch.length)

/-- Everything observable about one `Connection::send` call: the
returned value, the serial counter afterwards, the `write_all` calls
performed, and the caller's buffer after its in-place mutation. -/
structure SendOut where
  result : Except Error Nat
  next_serial : Nat
  transmitted : List (List Nat)
  buffer : List Nat
deriving DecidableEq

/-- `Connection::send` (connection.rs:250-273) given the current
`next_serial` counter and the prepared outgoing buffer.  A buffer
shorter than 16 bytes is `BadData` before anything is written.
Otherwise the body length is recomputed as the buffer length minus the
embedded builder length (u32 wrapping subtraction), the length and the
next serial are patched in, the counter is post-incremented (wrapping),
and the corrected buffer is written in one call. -/
def send (next_serial : Nat) (msg : List Nat) : SendOut :=
  let len := msg.length % UMAX
  if len < 16 then
    { result := .error Error.BadData, next_serial := next_serial,
      transmitted := [], buffer := msg }
  else
    let old_len := get_length msg
    let len2 := (len + (UMAX - old_len % UMAX)) % UMAX
    let patch := u32enc len2 ++ u32enc next_serial
    let msg2 := set_length msg patch
    { result := .ok next_serial, next_serial := (next_serial + 1) % UMAX,
      transmitted := [msg2], buffer := msg2 }

/-- A sequence of `send` calls threading the serial counter, collecting
each call's returned value. -/
def sendSeq (next_serial : Nat) : List (List Nat) → List (Except Error Nat) × Nat
  | [] => ([], next_serial)
  | msg :: rest =>
    let out := send next_serial msg
    let r := sendSeq out.next_serial rest
    (out.result :: r.1, r.2)

/-! ## Authentication -/

/-- The literal line `BEGIN\r\n`. -/
def beginLine : List Nat := [66, 69, 71, 73, 78, 13, 10]

/-- Byte values of an ASCII string literal. -/
def bytesOfAscii (s : String) : List Nat := s.data.map Char.toNat

/-- Whether `resp.starts_with("OK ")` holds for a response line. -/
def startsWithOK (line : List Nat) : Bool := line.take 3 = [79, 75, 32]

/-- The fixed `AUTH ANONYMOUS` command line of connection.rs:133. -/
def anonymousAuthLine : List Nat :=
  bytesOfAscii "AUTH ANONYMOUS 6c69626462757320312e382e3132\r\n"

/-- One lowercase hex digit (`rustc_serialize::hex::ToHex`). -/
def hexDigit (n : Nat) : Nat := if n < 10 then 48 + n else 87 + n

/-- Lowercase hex encoding of a byte list (`ToHex::to_hex`). -/
def toHexBytes (bs : List Nat) : List Nat :=
  bs.foldr (fun b acc => hexDigit (b / 16 % 16) :: hexDigit (b % 16) :: acc) []

/-- ASCII bytes of the decimal representation of a natural number
(`uid.to_string().into_bytes()`). -/
def decBytes (n : Nat) : List Nat := (Nat.repr n).data.map Char.toNat

/-- The `AUTH EXTERNAL` command line of connection.rs:154 for a given
numeric uid: the decimal uid string, hex-encoded. -/
def auth_external_line (uid : Nat) : List Nat :=
  bytesOfAscii "AUTH EXTERNAL " ++ toHexBytes (decBytes uid) ++ [13, 10]

/-- Everything observable about one authentication attempt: its result,
the `write_all` calls performed (in order), and the unread remainder of
the peer's stream (empty when the attempt died reading). -/
structure AuthOutcome where
  result : Except Error Unit
  writes : List (List Nat)
  remaining : List Nat
deriving DecidableEq

/-- `Connection::auth_anonymous` (connection.rs:130-144) against a peer
that will deliver `input`: write the AUTH line, read one response line,
fail with `AuthFailed` unless it begins with `"OK "`, and only then
write `BEGIN\r\n`. -/
def auth_anonymous (input : List Nat) : AuthOutcome :=
  match read_line input with
  | .error e => { result := .error e, writes := [anonymousAuthLine], remaining := [] }
  | .ok (resp, rest) =>
    if startsWithOK resp then
      { result := .ok (), writes := [anonymousAuthLine, beginLine], remaining := rest }
    else
      { result := .error Error.AuthFailed, writes := [anonymousAuthLine], remaining := rest }

/-- `Connection::auth_external` (connection.rs:146-166) for the calling
process's uid, against a peer that will deliver `input`: identical to
the anonymous flow but with the uid-bearing AUTH line. -/
def auth_external (uid : Nat) (input : List Nat) : AuthOutcome :=
  match read_line input with
  | .error e => { result := .error e, writes := [auth_external_line uid], remaining := [] }
  | .ok (resp, rest) =>
    if startsWithOK resp then
      { result := .ok (), writes := [auth_external_line uid, beginLine], remaining := rest }
    else
      { result := .error Error.AuthFailed, writes := [auth_external_line uid], remaining := rest }

/-! ## Frame codec — read path

The demarshalling of the header-fields array and of the body is done by
the external `demarshal` collaborator, which is not part of `src/`; the
definitions below are modelled from the spec's bit-exact wire-format
description (§6): offsets count from the start of the frame, every value
is aligned to its type's alignment, an array stores its payload byte
length in a u32, and a variant stores a one-byte-length signature
followed by the value it describes.  Multi-byte integers are decoded
little-endian, matching the external decoder.  Only the value signatures
that occur in D-Bus header fields (`u`, `y`, `g`, `s`, `o`) are decoded;
anything else is a demarshal error. -/

/-- Byte of the retained header buffer at wire offset `off`; the buffer
starts at wire offset 12 (it holds the 4 array-length bytes plus the
array payload).  Reading past the end is a demarshal error. -/
def bufByte (buf : List Nat) (off : Nat) : Except Error Nat :=
  match buf[off - 12]? with
  | some b => .ok b
  | none => .error (Error.DemarshalError DemarshalErr.CorruptedData)

/-- Consecutive bytes of the retained header buffer, wire offsets
`off, …, off + n - 1`. -/
def bufBytes (buf : List Nat) (off n : Nat) : Except Error (List Nat) :=
  if off - 12 + n ≤ buf.length then .ok ((buf.drop (off - 12)).take n)
  else .error (Error.DemarshalError DemarshalErr.CorruptedData)

/-- Next wire offset aligned to `a`. -/
def alignTo (off a : Nat) : Nat := off + (a - off % a) % a

/-- Modelled from the spec: decode one aligned little-endian u32 of the
retained header buffer, returning the value and the offset after it. -/
def readU32Buf (buf : List Nat) (off : Nat) : Except Error (Nat × Nat) := do
  let o := alignTo off 4
  let a ← bufByte buf o
  let b ← bufByte buf (o + 1)
  let c ← bufByte buf (o + 2)
  let d ← bufByte buf (o + 3)
  .ok (u32le a b c d, o + 4)

/-- Modelled from the spec: decode one value of the retained header
buffer according to a one-character type signature (the signatures that
occur inside header-field variants). -/
def parseBasic (buf : List Nat) (sig : List Nat) (off : Nat) : Except Error (Value × Nat) :=
  if sig = [117] then
    match readU32Buf buf off with
    | .ok (n, o) => .ok (Value.u32 n, o)
    | .error e => .error e
  else if sig = [121] then
    match bufByte buf off with
    | .ok b => .ok (Value.byte b, off + 1)
    | .error e => .error e
  else if sig = [103] then do
    let n ← bufByte buf off
    let bs ← bufBytes buf (off + 1) n
    let _ ← bufByte buf (off + 1 + n)
    .ok (Value.signature bs, off + 2 + n)
  else if sig = [115] ∨ sig = [111] then do
    let r ← readU32Buf buf off
    let bs ← bufBytes buf r.2 r.1
    let _ ← bufByte buf (r.2 + r.1)
    .ok (Value.str bs, r.2 + r.1 + 1)
  else .error (Error.DemarshalError DemarshalErr.BadSignature)

/-- Modelled from the spec: decode one `(code: byte, value: variant)`
struct of the header-fields array — align to the struct boundary (8),
read the field code, then the variant: signature length, signature
bytes, NUL, then the value itself. -/
def parseElem (buf : List Nat) (off : Nat) : Except Error ((Nat × Value) × Nat) := do
  let o := alignTo off 8
  let code ← bufByte buf o
  let slen ← bufByte buf (o + 1)
  let sg ← bufBytes buf (o + 2) slen
  let _ ← bufByte buf (o + 2 + slen)
  let r ← parseBasic buf sg (o + 3 + slen)
  .ok ((code, Value.variant r.1), r.2)

/-- Modelled from the spec: decode `(code, variant)` structs until the
array's end offset is reached.  Each successful element strictly
advances the offset, so `fuel` bounded by the payload length suffices;
running out of fuel or overshooting the end is a demarshal error. -/
def parseElems (buf : List Nat) (endOff : Nat) : Nat → Nat → Except Error (List (Nat × Value) × Nat)
  | fuel, off =>
    if off < endOff then
      match fuel with
      | 0 => .error (Error.DemarshalError DemarshalErr.CorruptedData)
      | fuel' + 1 =>
        match parseElem buf off with
        | .error e => .error e
        | .ok (cv, off') =>
          match parseElems buf endOff fuel' off' with
          | .error e => .error e
          | .ok (rest, fo) => .ok (cv :: rest, fo)
    else .ok ([], off)

/-- Modelled from the spec: the external `demarshal` of signature
`a(yv)` at wire offset 12 over the retained buffer (4 length bytes plus
the array payload): read the u32 payload length, then elements until
offset `16 + arrLen`; the array must end exactly there.  Returns the
decoded `(code, value)` pairs and the final wire offset. -/
def demarshalHeaderFields (buf : List Nat) : Except Error (List (Nat × Value) × Nat) :=
  match readU32Buf buf 12 with
  | .error e => .error e
  | .ok (arrLen, o) =>
    match parseElems buf (alignTo o 8 + arrLen) (arrLen + 1) (alignTo o 8) with
    | .error e => .error e
    | .ok (fields, fo) =>
      if fo = 16 + arrLen then .ok (fields, fo)
      else .error (Error.DemarshalError DemarshalErr.CorruptedData)

/-- The alignment-padding step of `Connection::read_msg`
(connection.rs:371-375): with the header section having ended at wire
offset `off`, compute `trailing_pad = 8 - off % 8` and read (and
discard) that many bytes unless `trailing_pad % 8 == 0`. -/
def padStep (off : Nat) (s : List Nat) : Except Error (List Nat) :=
  let trailing_pad := 8 - off % 8
  if trailing_pad % 8 ≠ 0 then
    match read_exactly s trailing_pad with
    | .ok r => .ok r.2
    | .error e => .error e
  else .ok s

/-- Modelled from the spec: decode one body value according to a
one-character signature, offsets counted from the start of the body.
Reuses the buffer decoder, whose offsets are based at 12; the shift by
12 preserves 4-byte alignment, the only alignment these signatures
use. -/
def parseBodyVal (body : List Nat) (c off : Nat) : Except Error (Value × Nat) :=
  match parseBasic body [c] (off + 12) with
  | .ok (v, o) => .ok (v, o - 12)
  | .error e => .error e

/-- Modelled from the spec: decode the sequence of body values named by
the stored signature string, in order. -/
def parseBodyVals (body : List Nat) : List Nat → Nat → Except Error (List Value × Nat)
  | [], off => .ok ([], off)
  | c :: cs, off =>
    match parseBodyVal body c off with
    | .error e => .error e
    | .ok (v, off') =>
      match parseBodyVals body cs off' with
      | .error e => .error e
      | .ok (vs, fo) => .ok (v :: vs, fo)

/-- Modelled from the spec: the external `demarshal` of the body bytes
as a struct whose signature is the stored signature string wrapped in
parentheses; the struct's members become the body sequence. -/
def demarshalBody (body : List Nat) (sg : List Nat) : Except Error (List Value) :=
  match parseBodyVals body sg 0 with
  | .error e => .error e
  | .ok (vs, _) => .ok vs

/-- The `Message` assembled from the twelve fixed-header bytes, the
decoded header map and the decoded body (connection.rs:326-336): the
endianness flag is set when the first byte is `'B'`, and body length
and serial are the two little-endian u32s at offsets 4 and 8. -/
def mkMsg (hdr : List Nat) (headers : List (Nat × Value)) (body : List Value) : Message :=
  { big_endian := hdr.getD 0 0 = 66
  , message_type := hdr.getD 1 0
  , flags := hdr.getD 2 0
  , version := hdr.getD 3 0
  , serial := decodeU32At hdr 8
  , headers := headers
  , body := body }

/-- The error-propagating sequencing performed by the source's `try!`
macro: stop on the first error, otherwise continue with the value. -/
def ebind {α β : Type} (x : Except Error α) (f : α → Except Error β) : Except Error β :=
  match x with
  | .error e => .error e
  | .ok a => f a

/-- The wire phase of `Connection::read_msg` (connection.rs:314-403),
reading one complete frame off the byte stream: 12 fixed-header bytes,
4 array-length bytes, exactly `arrLen` payload bytes (short delivery is
`Disconnected`), the header-fields array decoded over the retained
buffer, alignment padding, and — when the body length is nonzero — the
signature header field and exactly `body_len` body bytes.  Returns the
assembled message and the unread remainder of the stream.  Every `try!`
of the source is an `ebind`; `r.1`/`r.2` are the bytes read and the
stream remainder of each transport read. -/
def readMsgWire (s : List Nat) : Except Error (Message × List Nat) :=
  ebind (read_exactly s 12) fun r1 =>
  ebind (read_exactly r1.2 4) fun r2 =>
  if r2.2.length < decodeU32At r2.1 0 then .error Error.Disconnected
  else
    ebind (demarshalHeaderFields (r2.1 ++ r2.2.take (decodeU32At r2.1 0))) fun rf =>
    ebind (padStep rf.2 (r2.2.drop (decodeU32At r2.1 0))) fun s4 =>
    if decodeU32At r1.1 4 > 0 then
      match hmGet (rf.1.foldl (fun h cv => hmInsert h cv.1 cv.2) []) signatureCode with
      | some (Value.variant sv) =>
        match sv with
        | Value.signature sigBytes =>
          ebind (read_exactly s4 (decodeU32At r1.1 4)) fun rb =>
          ebind (demarshalBody rb.1 sigBytes) fun vals =>
          .ok (mkMsg r1.1 (rf.1.foldl (fun h cv => hmInsert h cv.1 cv.2) []) vals, rb.2)
        | _ => .error (Error.DemarshalError DemarshalErr.BadSignature)
      | _ => .error (Error.DemarshalError DemarshalErr.BadSignature)
    else .ok (mkMsg r1.1 (rf.1.foldl (fun h cv => hmInsert h cv.1 cv.2) []) [], s4)

/-! ## Connect entry points -/

/-- What a bus-connect entry point decides before any transport work:
either proceed to `Connection::connect` with a resolved address string
(which is what opens a socket) or fail immediately. -/
inductive SessionResult where
  | connectTo (addr : String)
  | fail (e : Error)
deriving DecidableEq

/-- `Connection::connect_session` (connection.rs:206-212) as a function
of the `DBUS_SESSION_BUS_ADDRESS` environment variable: an unset
variable is `NoEnvironment`; there is no fallback address. -/
def connect_session (env : Option String) : SessionResult :=
  match env with
  | some e => .connectTo e
  | none => .fail Error.NoEnvironment

/-- `Connection::connect_system` (connection.rs:194-201) as a function
of the `DBUS_SYSTEM_BUS_ADDRESS` environment variable: an unset
variable falls back to the well-known system bus path. -/
def connect_system (env : Option String) : SessionResult :=
  match env with
  | some e => .connectTo e
  | none => .connectTo "unix:path=/var/run/dbus/system_bus_socket"

/-! ## Concrete frames used by counterexamples and witnesses -/

/-- A frame whose `ReplySerial` header is a variant u32 different from
the serial 9 used in the scenarios below. -/
def msgNoMatch : Message :=
  ⟨false, 2, 0, 1, 100, [(5, Value.variant (Value.u32 7))], [Value.u32 41]⟩

/-- A frame whose `ReplySerial` header is a variant u32 equal to the
serial 9 used in the scenarios below. -/
def msgReply : Message :=
  ⟨false, 2, 0, 1, 101, [(5, Value.variant (Value.u32 9))], [Value.u32 42]⟩

/-- A frame with no `ReplySerial` header, queued after the reply in the
counterexample scenario. -/
def msgLater : Message :=
  ⟨false, 4, 0, 1, 102, [], [Value.u32 43]⟩

/-- A complete 24-byte wire frame: little-endian fixed header
(method call, flags 0, version 1, body length 0, serial 1), an 8-byte
header-fields array holding one `ReplySerial` variant u32 field, and no
padding or body. -/
def frameBytes : List Nat :=
  [108, 1, 0, 1, 0, 0, 0, 0, 1, 0, 0, 0] ++ [8, 0, 0, 0] ++ [5, 1, 117, 0, 9, 0, 0, 0]

/-- The message `readMsgWire` assembles from `frameBytes`. -/
def frameMsg : Message :=
  ⟨false, 1, 0, 1, 1, [(5, Value.variant (Value.u32 9))], []⟩

/-- A complete 28-byte wire frame with a body: fixed header (body
length 4, serial 2), a 7-byte header-fields array holding the
`Signature` field with signature `"u"`, one alignment padding byte
(the header section ends at offset 23), and a 4-byte u32 body. -/
def frameBodyBytes : List Nat :=
  [108, 1, 0, 1, 4, 0, 0, 0, 2, 0, 0, 0] ++ [7, 0, 0, 0] ++
    [8, 1, 103, 0, 1, 117, 0] ++ [0] ++ [99, 0, 0, 0]

/-- A minimal 16-byte outgoing buffer as the builder would leave it:
little-endian fixed header whose embedded length field holds the header
length (16) and whose serial field is still 0, plus a 4-byte
header-fields-array length of zero. -/
def sendBufExample : List Nat :=
  [108, 1, 0, 1] ++ u32enc 16 ++ u32enc 0 ++ [0, 0, 0, 0]

end DbusBytestream

namespace DbusBytestream

/-! ## Helper lemmas -/

theorem read_msg_queue (m : Message) (q w : List Message) :
    read_msg ⟨m :: q, w⟩ = .ok (m, ⟨q, w⟩) := rfl

theorem read_msg_wire_cons (m : Message) (w : List Message) :
    read_msg ⟨[], m :: w⟩ = .ok (m, ⟨[], w⟩) := rfl

/-- One step of the `call_sync` loop on a message it skips: the message
is requeued locally with its `ReplySerial` header removed and the loop
continues. -/
theorem call_sync_loop_step_skip (serial : Nat) (loc : List Message)
    (c c' : ConnectionM) (m : Message)
    (hread : read_msg c = .ok (m, c')) (hskip : skipsMatch serial m = true) :
    call_sync_loop serial loc c = call_sync_loop serial (loc ++ [stripReplySerial m]) c' := by
  conv_lhs => rw [call_sync_loop.eq_def]
  split
  · next e heq => rw [hread] at heq; cases heq
  · next m2 c2 heq =>
    rw [hread] at heq
    injection heq with h
    injection h with h1 h2
    subst h1; subst h2
    unfold skipsMatch at hskip
    rcases hrm : (hmRemove m.headers replySerialCode).1 with _ | v
    · rfl
    · rcases v with n | n | bs | bs | x
      · rfl
      · rfl
      · rfl
      · rfl
      · rcases x with n | n | bs | bs | y
        · rw [hrm] at hskip; simp at hskip
        · rw [hrm] at hskip
          simp at hskip
          show (if n = serial
              then CallResult.ok (m.body, { queue := c'.queue ++ loc, wire := c'.wire })
              else call_sync_loop serial (loc ++ [stripReplySerial m]) c') =
            call_sync_loop serial (loc ++ [stripReplySerial m]) c'
          rw [if_neg hskip]
        · rw [hrm] at hskip; simp at hskip
        · rw [hrm] at hskip; simp at hskip
        · rw [hrm] at hskip; simp at hskip

/-- One step of the `call_sync` loop on the matching reply: the body is
returned and the local queue is pushed onto the back of the connection
queue. -/
theorem call_sync_loop_step_hit (serial : Nat) (loc : List Message)
    (c c' : ConnectionM) (m : Message)
    (hread : read_msg c = .ok (m, c')) (hhit : isReply serial m = true) :
    call_sync_loop serial loc c = .ok (m.body, { c' with queue := c'.queue ++ loc }) := by
  conv_lhs => rw [call_sync_loop.eq_def]
  split
  · next e heq => rw [hread] at heq; cases heq
  · next m2 c2 heq =>
    rw [hread] at heq
    injection heq with h
    injection h with h1 h2
    subst h1; subst h2
    unfold isReply at hhit
    rcases hrm : (hmRemove m.headers replySerialCode).1 with _ | v
    · rw [hrm] at hhit; simp at hhit
    · rcases v with n | n | bs | bs | x
      · rw [hrm] at hhit; simp at hhit
      · rw [hrm] at hhit; simp at hhit
      · rw [hrm] at hhit; simp at hhit
      · rw [hrm] at hhit; simp at hhit
      · rcases x with n | n | bs | bs | y
        · rw [hrm] at hhit; simp at hhit
        · rw [hrm] at hhit
          simp at hhit
          show (if n = serial
              then CallResult.ok (m.body, { queue := c'.queue ++ loc, wire := c'.wire })
              else call_sync_loop serial (loc ++ [stripReplySerial m]) c') =
            CallResult.ok (m.body, { queue := c'.queue ++ loc, wire := c'.wire })
          rw [if_pos hhit]
        · rw [hrm] at hhit; simp at hhit
        · rw [hrm] at hhit; simp at hhit
        · rw [hrm] at hhit; simp at hhit

/-- Full characterization of the `call_sync` receive loop: when the
messages delivered by `read_msg` are a block `pre` of skipped frames
followed by the matching reply `hit`, the loop returns `hit`'s body;
whatever was left of the connection queue keeps its place at the front,
the stripped skipped frames are appended after it (and after any
previously skipped `loc` frames), and the wire has advanced past
exactly the frames that were read. -/
theorem call_sync_loop_spec (serial : Nat) (pre : List Message) :
    ∀ (c : ConnectionM) (loc : List Message) (hit : Message) (rest : List Message),
      c.queue ++ c.wire = pre ++ hit :: rest →
      (∀ m ∈ pre, skipsMatch serial m = true) →
      isReply serial hit = true →
      call_sync_loop serial loc c =
        .ok (hit.body,
          ⟨c.queue.drop (pre.length + 1) ++ loc ++ pre.map stripReplySerial,
           c.wire.drop (pre.length + 1 - c.queue.length)⟩) := by
  induction pre with
  | nil =>
    intro c loc hit rest hsplit hpre hhit
    rcases c with ⟨q, w⟩
    rcases q with _ | ⟨m0, q'⟩
    · simp only [List.nil_append] at hsplit
      subst hsplit
      rw [call_sync_loop_step_hit serial loc _ _ _ (read_msg_wire_cons _ _) hhit]
      simp
    · simp only [List.cons_append, List.nil_append] at hsplit
      injection hsplit with h1 h2
      subst h1
      rw [call_sync_loop_step_hit serial loc _ _ _ (read_msg_queue _ q' w) hhit]
      simp [Nat.succ_sub_succ]
  | cons p pre' ih =>
    intro c loc hit rest hsplit hpre hhit
    rcases c with ⟨q, w⟩
    rcases q with _ | ⟨m0, q'⟩
    · simp only [List.nil_append, List.cons_append] at hsplit
      rcases w with _ | ⟨w0, w'⟩
      · exact absurd hsplit (by simp)
      · injection hsplit with h1 h2
        subst h1
        rw [call_sync_loop_step_skip serial loc _ _ _ (read_msg_wire_cons _ _)
          (hpre _ (by simp))]
        have hrec := ih ⟨[], w'⟩ (loc ++ [stripReplySerial w0]) hit rest (by simpa using h2)
          (fun m hm => hpre m (by simp [hm])) hhit
        rw [hrec]
        simp [List.append_assoc]
    · simp only [List.cons_append] at hsplit
      injection hsplit with h1 h2
      subst h1
      rw [call_sync_loop_step_skip serial loc _ _ _ (read_msg_queue _ q' w)
        (hpre _ (by simp))]
      have hrec := ih ⟨q', w⟩ (loc ++ [stripReplySerial m0]) hit rest h2
        (fun m hm => hpre m (by simp [hm])) hhit
      rw [hrec]
      simp only [List.length_cons, List.drop_succ_cons, List.map_cons, List.append_assoc,
        List.singleton_append, List.cons_append, List.nil_append, Nat.succ_sub_succ]

/-- A key that does not occur in the header map is not found. -/
theorem hmGet_not_mem (m : List (Nat × Value)) (k : Nat)
    (h : k ∉ m.map Prod.fst) : hmGet m k = none := by
  induction m with
  | nil => rfl
  | cons p rest ih =>
    simp only [List.map_cons, List.mem_cons] at h
    push_neg at h
    simp only [hmGet]
    rw [if_neg (fun hh => h.1 hh.symm)]
    exact ih h.2

/-- After `HashMap::remove`, the removed key is absent (keys of a
`HashMap` are unique, hence the `Nodup` hypothesis). -/
theorem hmGet_hmRemove_self (m : List (Nat × Value)) (k : Nat)
    (h : (m.map Prod.fst).Nodup) : hmGet (hmRemove m k).2 k = none := by
  induction m with
  | nil => rfl
  | cons p rest ih =>
    rcases p with ⟨k', v⟩
    simp only [List.map_cons, List.nodup_cons] at h
    simp only [hmRemove]
    by_cases hk : k' = k
    · rw [if_pos hk]
      exact hmGet_not_mem rest k (hk ▸ h.1)
    · rw [if_neg hk]
      simp only [hmGet]
      rw [if_neg hk]
      exact ih h.2

/-- `HashMap::remove` leaves every other key unchanged. -/
theorem hmGet_hmRemove_ne (m : List (Nat × Value)) (k j : Nat) (hj : j ≠ k) :
    hmGet (hmRemove m k).2 j = hmGet m j := by
  induction m with
  | nil => rfl
  | cons p rest ih =>
    rcases p with ⟨k', v⟩
    simp only [hmRemove]
    by_cases hk : k' = k
    · rw [if_pos hk]
      simp only [hmGet]
      rw [if_neg (fun hh : k' = j => hj (hh ▸ hk ▸ rfl))]
    · rw [if_neg hk]
      simp only [hmGet]
      by_cases hkj : k' = j
      · rw [if_pos hkj, if_pos hkj]
      · rw [if_neg hkj, if_neg hkj]
        exact ih

/-! ## Claim theorems -/

/-- C1, counterexample.  The claim says the skipped frames are placed at
the *front* of the Connection's queue, so that subsequent `read_msg`
calls return them before any newer frame.  Start from a connection whose
queue already holds `msgNoMatch` (no matching `ReplySerial`), `msgReply`
(`ReplySerial` = 9) and `msgLater`, and run `call_sync`'s receive phase
for serial 9: the loop skips `msgNoMatch`, matches `msgReply`, and
pushes the skipped frame onto the *back* of the queue, behind
`msgLater` — so the next `read_msg` returns `msgLater`, not the skipped
frame, refuting the claim at this input. -/
theorem c1_front_splice_counterexample :
    call_sync_recv 9 ⟨[msgNoMatch, msgReply, msgLater], []⟩ =
      .ok (msgReply.body, ⟨[msgLater, stripReplySerial msgNoMatch], []⟩) ∧
    read_msg ⟨[msgLater, stripReplySerial msgNoMatch], []⟩ =
      .ok (msgLater, ⟨[stripReplySerial msgNoMatch], []⟩) ∧
    msgLater ≠ stripReplySerial msgNoMatch := by
  refine ⟨?_, rfl, by decide⟩
  have h := call_sync_loop_spec 9 [msgNoMatch] ⟨[msgNoMatch, msgReply, msgLater], []⟩ []
    msgReply [msgLater] rfl (by decide) (by decide)
  simpa [call_sync_recv] using h

/-- C1, amended.  For every `call_sync` invocation that sends a message
assigned serial S1, if the messages obtained from `read_msg` are a
sequence of frames without `ReplySerial` = S1 followed by one frame
whose `ReplySerial` equals S1, then `call_sync` returns exactly that
frame's body, and the skipped frames are appended to the *back* of the
Connection's queue in their original arrival order — after any frames
that were already queued beyond the match, and before any frame not yet
read from the wire.  In particular, whenever at most the whole
pre-existing queue was consumed in the search (e.g. the matching frame
came from the wire), the skipped frames are exactly the queue, so
subsequent `read_msg` calls return them in their original order before
any newer frame. -/
theorem c1_call_sync_skipped_requeued (serial : Nat) (c : ConnectionM)
    (pre : List Message) (hit : Message) (rest : List Message)
    (hsplit : c.queue ++ c.wire = pre ++ hit :: rest)
    (hpre : ∀ m ∈ pre, skipsMatch serial m = true)
    (hhit : isReply serial hit = true) :
    call_sync_recv serial c =
      .ok (hit.body,
        ⟨c.queue.drop (pre.length + 1) ++ pre.map stripReplySerial,
         c.wire.drop (pre.length + 1 - c.queue.length)⟩) ∧
    (c.queue.length ≤ pre.length →
      call_sync_recv serial c =
        .ok (hit.body,
          ⟨pre.map stripReplySerial,
           c.wire.drop (pre.length + 1 - c.queue.length)⟩)) := by
  have h := call_sync_loop_spec serial pre c [] hit rest hsplit hpre hhit
  constructor
  · simpa [call_sync_recv] using h
  · intro hle
    have hnil : c.queue.drop (pre.length + 1) = [] :=
      List.drop_eq_nil_of_le (by omega)
    rw [call_sync_recv, h, hnil]
    simp

/-- C1 witness: the amended theorem applied to a connection with an
empty queue and three wire frames, the second being the reply to
serial 9. -/
theorem c1_call_sync_skipped_requeued_witness :
    call_sync_recv 9 ⟨[], [msgNoMatch, msgReply, msgLater]⟩ =
      .ok (msgReply.body, ⟨[stripReplySerial msgNoMatch], [msgLater]⟩) :=
  (c1_call_sync_skipped_requeued 9 ⟨[], [msgNoMatch, msgReply, msgLater]⟩
    [msgNoMatch] msgReply [msgLater] rfl (by decide) (by decide)).1

/-- C3.  For every Connection whose internal queue is non-empty,
`read_msg` removes and returns the oldest (front) queued message and
performs no transport access: the wire component of the state is
untouched. -/
theorem c3_read_msg_queue_first (c : ConnectionM) (m : Message) (rest : List Message)
    (h : c.queue = m :: rest) :
    read_msg c = .ok (m, ⟨rest, c.wire⟩) := by
  rcases c with ⟨q, w⟩
  cases h
  rfl

/-- C3 witness: a two-element queue pops its front without touching the
wire. -/
theorem c3_read_msg_queue_first_witness :
    read_msg ⟨[msgLater, msgNoMatch], [msgReply]⟩ =
      .ok (msgLater, ⟨[msgNoMatch], [msgReply]⟩) :=
  c3_read_msg_queue_first ⟨[msgLater, msgNoMatch], [msgReply]⟩ msgLater [msgNoMatch] rfl

/-- C9.  With `DBUS_SESSION_BUS_ADDRESS` unset, `connect_session` fails
with `NoEnvironment` and never proceeds to a connect (so no socket is
opened): there is no fallback address for the session bus — unlike
`connect_system`, which does fall back to the well-known path. -/
theorem c9_connect_session_no_env :
    connect_session none = .fail Error.NoEnvironment ∧
    connect_system none = .connectTo "unix:path=/var/run/dbus/system_bus_socket" :=
  ⟨rfl, rfl⟩

/-- C10.  `call_sync` removes the `ReplySerial` header entry from every
message it examines, so every skipped message it requeues (and which
`read_msg` later returns) has its `ReplySerial` header absent, while
its endianness flag, type, flags, version, serial, remaining header
fields and body are unchanged. -/
theorem c10_strip_replyserial (serial : Nat) (c : ConnectionM)
    (pre : List Message) (hit : Message) (rest : List Message)
    (hsplit : c.queue ++ c.wire = pre ++ hit :: rest)
    (hpre : ∀ m ∈ pre, skipsMatch serial m = true)
    (hhit : isReply serial hit = true) :
    call_sync_recv serial c =
      .ok (hit.body,
        ⟨c.queue.drop (pre.length + 1) ++ pre.map stripReplySerial,
         c.wire.drop (pre.length + 1 - c.queue.length)⟩) ∧
    ∀ m ∈ pre,
      ((m.headers.map Prod.fst).Nodup →
        hmGet (stripReplySerial m).headers replySerialCode = none) ∧
      (∀ k, k ≠ replySerialCode →
        hmGet (stripReplySerial m).headers k = hmGet m.headers k) ∧
      (stripReplySerial m).big_endian = m.big_endian ∧
      (stripReplySerial m).message_type = m.message_type ∧
      (stripReplySerial m).flags = m.flags ∧
      (stripReplySerial m).version = m.version ∧
      (stripReplySerial m).serial = m.serial ∧
      (stripReplySerial m).body = m.body := by
  refine ⟨by simpa [call_sync_recv] using
    call_sync_loop_spec serial pre c [] hit rest hsplit hpre hhit, ?_⟩
  intro m _
  exact ⟨fun hnd => hmGet_hmRemove_self m.headers replySerialCode hnd,
    fun k hk => hmGet_hmRemove_ne m.headers replySerialCode k hk,
    rfl, rfl, rfl, rfl, rfl, rfl⟩

/-- Any four little-endian bytes decode below `2^32`. -/
theorem decodeU32At_lt (buf : List Nat) (i : Nat) : decodeU32At buf i < UMAX := by
  simp only [decodeU32At, u32le, UMAX]
  omega

/-- Decoding at offset 4 skips a four-byte prefix. -/
theorem decodeU32At_four_prefix (b rest : List Nat) (hb : 4 ≤ b.length) :
    decodeU32At (b.take 4 ++ rest) 4 = decodeU32At rest 0 := by
  rcases b with _ | ⟨a1, _ | ⟨a2, _ | ⟨a3, _ | ⟨a4, t⟩⟩⟩⟩
  · simp at hb
  · simp at hb
  · simp at hb
  · simp at hb
  · rfl

/-- Decoding the little-endian encoding returns the value modulo
`2^32`. -/
theorem decodeU32At_u32enc (x : Nat) (tail : List Nat) :
    decodeU32At (u32enc x ++ tail) 0 = x % UMAX := by
  simp only [u32enc, decodeU32At, u32le, UMAX, List.cons_append, List.getD_cons_zero,
    List.getD_cons_succ]
  omega

/-- A successful `send` returns the current serial and post-increments
the counter. -/
theorem send_ok_basic (s : Nat) (b : List Nat) (h16 : 16 ≤ b.length) (hb : b.length < UMAX) :
    (send s b).result = .ok s ∧ (send s b).next_serial = (s + 1) % UMAX := by
  have hlen : b.length % UMAX = b.length := Nat.mod_eq_of_lt hb
  simp only [send, hlen]
  rw [if_neg (by omega)]
  exact ⟨rfl, rfl⟩

/-- A successful `send` writes exactly its patched buffer, and the
patched body-length field holds the buffer length minus the length the
builder embedded. -/
theorem send_body_length (s : Nat) (b : List Nat) (h16 : 16 ≤ b.length) (hb : b.length < UMAX)
    (hold : get_length b ≤ b.length) :
    (send s b).transmitted = [(send s b).buffer] ∧
    decodeU32At (send s b).buffer 4 = b.length - get_length b := by
  have hlen : b.length % UMAX = b.length := Nat.mod_eq_of_lt hb
  have holdlt : get_length b < UMAX := decodeU32At_lt b 4
  simp only [send, hlen]
  rw [if_neg (by omega)]
  refine ⟨rfl, ?_⟩
  simp only [set_length]
  rw [List.append_assoc, decodeU32At_four_prefix b _ (by omega), List.append_assoc,
    decodeU32At_u32enc, Nat.mod_eq_of_lt holdlt]
  simp only [UMAX] at hb hold ⊢
  omega

/-- The serial values returned by a run of successful sends starting
from counter `s` are `s, s+1, s+2, …`. -/
theorem sendSeq_serials (bufs : List (List Nat)) :
    ∀ s, (∀ b ∈ bufs, 16 ≤ b.length ∧ b.length < UMAX) →
      s + bufs.length < UMAX →
      (sendSeq s bufs).1 = (List.range bufs.length).map (fun i => Except.ok (s + i)) := by
  induction bufs with
  | nil => intro s _ _; rfl
  | cons b rest ih =>
    intro s hb hwrap
    obtain ⟨h16, hblt⟩ := hb b (by simp)
    obtain ⟨hres, hns⟩ := send_ok_basic s b h16 hblt
    have hns' : (send s b).next_serial = s + 1 := by
      rw [hns, Nat.mod_eq_of_lt (by simp only [List.length_cons] at hwrap; omega)]
    simp only [sendSeq, hres, hns']
    rw [ih (s + 1) (fun x hx => hb x (by simp [hx]))
      (by simp only [List.length_cons] at hwrap; omega)]
    simp only [List.length_cons, List.range_succ_eq_map, List.map_cons, List.map_map,
      Nat.add_zero]
    congr 1
    apply List.map_congr_left
    intro i _
    simp only [Function.comp_apply]
    exact congrArg _ (by omega)

/-- C2.  On a freshly constructed connection (counter 1), a sequence of
sends of valid builder buffers (length at least 16, representable as a
u32, embedded header length at most the total length) returns the
serials 1, 2, 3, …, and every such call transmits exactly its patched
buffer, whose body-length field holds the buffer's total length minus
the length the builder embedded (the header length at encode time).
The bound on the number of sends keeps the u32 counter from wrapping,
which the spec itself allows for. -/
theorem c2_send_serials_and_body_length (bufs : List (List Nat))
    (hb : ∀ b ∈ bufs, 16 ≤ b.length ∧ b.length < UMAX ∧ get_length b ≤ b.length)
    (hn : 1 + bufs.length < UMAX) :
    (sendSeq 1 bufs).1 = (List.range bufs.length).map (fun i => Except.ok (1 + i)) ∧
    ∀ s b, 16 ≤ b.length → b.length < UMAX → get_length b ≤ b.length →
      (send s b).transmitted = [(send s b).buffer] ∧
      decodeU32At (send s b).buffer 4 = b.length - get_length b := by
  refine ⟨sendSeq_serials bufs 1 (fun x hx => ⟨(hb x hx).1, (hb x hx).2.1⟩) hn, ?_⟩
  intro s b h16 hblt hold
  exact send_body_length s b h16 hblt hold

/-- C2 witness: two sends of a 16-byte buffer from a fresh connection
return serials 1 and 2, and patch body length 0 (= 16 − 16). -/
theorem c2_send_serials_and_body_length_witness :
    (sendSeq 1 [sendBufExample, sendBufExample]).1 = [Except.ok 1, Except.ok 2] ∧
    decodeU32At (send 7 sendBufExample).buffer 4 =
      sendBufExample.length - get_length sendBufExample := by
  have h := c2_send_serials_and_body_length [sendBufExample, sendBufExample]
    (by decide) (by decide)
  exact ⟨h.1.trans (by decide), (h.2 7 sendBufExample (by decide) (by decide) (by decide)).2⟩

/-- C8.  A buffer of fewer than 16 bytes is rejected by `send` with
`BadData`: nothing is written to the transport and the serial counter
is untouched. -/
theorem c8_send_too_small (next_serial : Nat) (msg : List Nat) (h : msg.length < 16) :
    (send next_serial msg).result = .error Error.BadData ∧
    (send next_serial msg).transmitted = [] ∧
    (send next_serial msg).next_serial = next_serial := by
  have hc : msg.length % UMAX < 16 := by
    rw [Nat.mod_eq_of_lt (lt_trans h (by norm_num [UMAX]))]
    exact h
  simp only [send]
  rw [if_pos hc]
  exact ⟨rfl, rfl, rfl⟩

/-- C8 witness: the empty buffer is rejected without a write. -/
theorem c8_send_too_small_witness :
    ([] : List Nat).length < 16 ∧
    (send 1 []).result = .error Error.BadData ∧
    (send 1 []).transmitted = [] ∧
    (send 1 []).next_serial = 1 :=
  ⟨by decide, c8_send_too_small 1 [] (by decide)⟩

theorem ebind_ok {α β : Type} (a : α) (f : α → Except Error β) :
    ebind (.ok a) f = f a := rfl

theorem ebind_err {α β : Type} (e : Error) (f : α → Except Error β) :
    ebind (.error e) f = .error e := rfl

/-- A successful `read_exactly` took exactly the first `n` bytes and
the stream had at least `n` of them. -/
theorem read_exactly_ok {s : List Nat} {n : Nat} {t rest : List Nat}
    (h : read_exactly s n = .ok (t, rest)) :
    t = s.take n ∧ rest = s.drop n ∧ n ≤ s.length := by
  unfold read_exactly at h
  split at h
  · cases h
  · next hlen =>
    injection h with h1
    injection h1 with h2 h3
    exact ⟨h2.symm, h3.symm, by omega⟩

/-- Against a stream truncated below the requested count,
`read_exactly` reports `Disconnected`. -/
theorem read_exactly_take_short {s : List Nat} {n k : Nat} (hk : k ≤ s.length) (hkn : k < n) :
    read_exactly (s.take k) n = .error Error.Disconnected := by
  unfold read_exactly
  rw [if_pos (by simp only [List.length_take]; omega)]

/-- Against a stream truncated at or beyond the requested count,
`read_exactly` reads the same bytes as against the full stream and
leaves the truncated remainder. -/
theorem read_exactly_take_long {s : List Nat} {n k : Nat} (hn : n ≤ s.length) (hnk : n ≤ k) :
    read_exactly (s.take k) n = .ok (s.take n, (s.drop n).take (k - n)) := by
  unfold read_exactly
  rw [if_neg (by simp only [List.length_take]; omega)]
  rw [List.take_take, Nat.min_eq_left hnk, List.drop_take]

/-- The padding step consumes exactly `(8 − off % 8) % 8` bytes when
the stream has them. -/
theorem padStep_consumes (off : Nat) (s : List Nat) (h : (8 - off % 8) % 8 ≤ s.length) :
    padStep off s = .ok (s.drop ((8 - off % 8) % 8)) := by
  by_cases h0 : off % 8 = 0
  · simp [padStep, h0]
  · have hr : off % 8 < 8 := Nat.mod_lt _ (by norm_num)
    have hmod : (8 - off % 8) % 8 = 8 - off % 8 := Nat.mod_eq_of_lt (by omega)
    rw [hmod] at h
    rw [hmod]
    simp only [padStep, read_exactly]
    rw [if_pos (by omega : ¬ (8 - off % 8) % 8 = 0)]
    rw [if_neg (by omega : ¬ s.length < 8 - off % 8)]

/-- The padding step reports `Disconnected` when the stream is shorter
than the padding it must consume. -/
theorem padStep_short (off : Nat) (s : List Nat) (h : s.length < (8 - off % 8) % 8) :
    padStep off s = .error Error.Disconnected := by
  have hr : off % 8 < 8 := Nat.mod_lt _ (by norm_num)
  have h0 : ¬ off % 8 = 0 := by
    intro h0
    rw [h0] at h
    simp at h
  have hmod : (8 - off % 8) % 8 = 8 - off % 8 := Nat.mod_eq_of_lt (by omega)
  rw [hmod] at h
  simp only [padStep, read_exactly]
  rw [if_pos (by omega : ¬ (8 - off % 8) % 8 = 0)]
  rw [if_pos (by omega : s.length < 8 - off % 8)]

/-- What a successful padding step tells us: it consumed exactly the
alignment gap, which the stream covered. -/
theorem padStep_ok_inv {off : Nat} {s r : List Nat} (h : padStep off s = .ok r) :
    r = s.drop ((8 - off % 8) % 8) ∧ (8 - off % 8) % 8 ≤ s.length := by
  by_cases hle : (8 - off % 8) % 8 ≤ s.length
  · rw [padStep_consumes off s hle] at h
    injection h with h1
    exact ⟨h1.symm, hle⟩
  · rw [padStep_short off s (by omega)] at h
    cases h

/-- C4.  If the frame reader completes on a stream, then cutting that
stream anywhere strictly inside the consumed region makes the reader
fail with `Disconnected`: whichever read step (fixed header, array
length, array payload, padding, body) first finds the transport short
of its requested byte count reports the disconnect, and no message is
ever produced from a truncated read. -/
theorem c4_truncated_read_disconnects (s : List Nat) (m : Message) (rest : List Nat)
    (h : readMsgWire s = .ok (m, rest)) (k : Nat) (hk : k < s.length - rest.length) :
    readMsgWire (s.take k) = .error Error.Disconnected := by
  have hks : k ≤ s.length := by omega
  unfold readMsgWire at h
  -- the 12 fixed-header bytes
  rcases h12 : read_exactly s 12 with e | ⟨hdr, s1⟩
  · rw [h12, ebind_err] at h; cases h
  obtain ⟨hh1, hh2, hle12⟩ := read_exactly_ok h12
  subst hh1; subst hh2
  rw [h12, ebind_ok] at h
  simp only at h
  -- the 4 array-length bytes
  rcases h4 : read_exactly (s.drop 12) 4 with e | ⟨lenB, s2⟩
  · rw [h4, ebind_err] at h; cases h
  obtain ⟨hh3, hh4, hle4⟩ := read_exactly_ok h4
  subst hh3; subst hh4
  rw [h4, ebind_ok] at h
  simp only at h
  -- the array payload
  by_cases hsl : ((s.drop 12).drop 4).length < decodeU32At ((s.drop 12).take 4) 0
  · rw [if_pos hsl] at h; cases h
  rw [if_neg hsl] at h
  -- the header-fields array decode over the retained buffer
  rcases hdm : demarshalHeaderFields
      ((s.drop 12).take 4 ++
        ((s.drop 12).drop 4).take (decodeU32At ((s.drop 12).take 4) 0))
    with e | ⟨fields, off⟩
  · rw [hdm, ebind_err] at h; cases h
  rw [hdm, ebind_ok] at h
  simp only at h
  -- the alignment padding
  rcases hps : padStep off
      (((s.drop 12).drop 4).drop (decodeU32At ((s.drop 12).take 4) 0))
    with e | s4
  · rw [hps, ebind_err] at h; cases h
  obtain ⟨hs4, hple⟩ := padStep_ok_inv hps
  subst hs4
  rw [hps, ebind_ok] at h
  -- abbreviations for the arithmetic
  have hlen4 : (4 : Nat) ≤ s.length - 12 := by
    simpa [List.length_drop] using hle4
  have harrle : decodeU32At ((s.drop 12).take 4) 0 ≤ s.length - 16 := by
    simp only [List.length_drop, not_lt] at hsl
    omega
  have hpleS : (8 - off % 8) % 8 ≤
      s.length - 16 - decodeU32At ((s.drop 12).take 4) 0 := by
    simp only [List.length_drop] at hple
    omega
  -- region: truncated inside the fixed header
  by_cases hk12 : k < 12
  · unfold readMsgWire
    rw [read_exactly_take_short hks hk12, ebind_err]
  push_neg at hk12
  -- region: truncated inside the array-length word
  by_cases hk16 : k - 12 < 4
  · unfold readMsgWire
    rw [read_exactly_take_long hle12 hk12, ebind_ok]
    simp only
    rw [read_exactly_take_short (by simp only [List.length_drop]; omega) hk16, ebind_err]
  push_neg at hk16
  -- region: truncated inside the array payload
  by_cases hkar : k - 12 - 4 < decodeU32At ((s.drop 12).take 4) 0
  · unfold readMsgWire
    rw [read_exactly_take_long hle12 hk12, ebind_ok]
    simp only
    rw [read_exactly_take_long hle4 hk16, ebind_ok]
    simp only
    rw [if_pos (by simp only [List.length_take, List.length_drop]; omega)]
  push_neg at hkar
  -- region: truncated inside the alignment padding
  by_cases hkp : k - 12 - 4 - decodeU32At ((s.drop 12).take 4) 0 < (8 - off % 8) % 8
  · unfold readMsgWire
    rw [read_exactly_take_long hle12 hk12, ebind_ok]
    simp only
    rw [read_exactly_take_long hle4 hk16, ebind_ok]
    simp only
    rw [if_neg (by simp only [List.length_take, List.length_drop]; omega)]
    rw [List.take_take, Nat.min_eq_left hkar, hdm, ebind_ok]
    simp only
    rw [List.drop_take,
      padStep_short off _ (by simp only [List.length_take, List.length_drop]; omega),
      ebind_err]
  push_neg at hkp
  -- the padding was fully inside the cut, so the run must have a body
  by_cases hbl : decodeU32At (s.take 12) 4 > 0
  case neg =>
    rw [if_neg hbl] at h
    injection h with h1
    injection h1 with hm2 hr
    have hrl : rest.length =
        s.length - 12 - 4 - decodeU32At ((s.drop 12).take 4) 0 - (8 - off % 8) % 8 := by
      rw [← hr]
      simp only [List.length_drop]
    omega
  rw [if_pos hbl] at h
  -- the run consulted the signature header field successfully
  rcases hsig : hmGet (List.foldl (fun h cv => hmInsert h cv.1 cv.2) [] fields)
      signatureCode with _ | v
  · rw [hsig] at h; cases h
  rcases v with n | n | bs | bs | sv
  · rw [hsig] at h; cases h
  · rw [hsig] at h; cases h
  · rw [hsig] at h; cases h
  · rw [hsig] at h; cases h
  rcases sv with n | n | bs | bs | y
  · rw [hsig] at h; cases h
  · rw [hsig] at h; cases h
  · rw [hsig] at h; cases h
  · -- the signature-string case: the run reads the body
    rw [hsig] at h
    simp only at h
    -- the body bytes
    rcases hrb : read_exactly
        ((((s.drop 12).drop 4).drop (decodeU32At ((s.drop 12).take 4) 0)).drop
          ((8 - off % 8) % 8))
        (decodeU32At (s.take 12) 4) with e | ⟨bodyB, s5⟩
    · rw [hrb, ebind_err] at h; cases h
    obtain ⟨hh5, hh6, hleB⟩ := read_exactly_ok hrb
    subst hh5; subst hh6
    rw [hrb, ebind_ok] at h
    rcases hdb : demarshalBody _ bs with e | vals
    · rw [hdb, ebind_err] at h; cases h
    rw [hdb, ebind_ok] at h
    simp only at h
    injection h with h1
    injection h1 with hm2 hr
    have hrl : rest.length =
        s.length - 12 - 4 - decodeU32At ((s.drop 12).take 4) 0 - (8 - off % 8) % 8 -
          decodeU32At (s.take 12) 4 := by
      rw [← hr]
      simp only [List.length_drop]
    have hleBS : decodeU32At (s.take 12) 4 ≤
        s.length - 12 - 4 - decodeU32At ((s.drop 12).take 4) 0 - (8 - off % 8) % 8 := by
      simp only [List.length_drop] at hleB
      omega
    -- region: truncated inside the body
    unfold readMsgWire
    rw [read_exactly_take_long hle12 hk12, ebind_ok]
    simp only
    rw [read_exactly_take_long hle4 hk16, ebind_ok]
    simp only
    rw [if_neg (by simp only [List.length_take, List.length_drop]; omega)]
    rw [List.take_take, Nat.min_eq_left hkar, hdm, ebind_ok]
    simp only
    rw [List.drop_take,
      padStep_consumes off _ (by simp only [List.length_take, List.length_drop]; omega),
      ebind_ok]
    rw [if_pos hbl, hsig]
    rw [List.drop_take,
      read_exactly_take_short (by simp only [List.length_drop]; omega) (by omega)]
    rfl
  · rw [hsig] at h; cases h

/-- C4 witness: the 28-byte frame with a body parses whole, and cutting
its stream to 20 bytes (inside the array payload) yields
`Disconnected`. -/
theorem c4_truncated_read_disconnects_witness :
    readMsgWire (frameBodyBytes.take 20) = .error Error.Disconnected ∧
    (20 : Nat) < frameBodyBytes.length - 0 := by
  refine ⟨?_, by decide⟩
  have hok : readMsgWire frameBodyBytes =
      .ok (⟨false, 1, 0, 1, 2, [(8, Value.variant (Value.signature [117]))],
        [Value.u32 99]⟩, []) := by decide
  exact c4_truncated_read_disconnects frameBodyBytes _ [] hok 20 (by decide)

/-- The `AUTH EXTERNAL` prefix, byte by byte. -/
theorem authExternalPrefixBytes :
    bytesOfAscii "AUTH EXTERNAL " =
      [65, 85, 84, 72, 32, 69, 88, 84, 69, 82, 78, 65, 76, 32] := by decide

/-- No `AUTH EXTERNAL` command line equals `BEGIN\r\n`, whatever the
uid: the first bytes already differ. -/
theorem auth_external_line_ne_begin (uid : Nat) : auth_external_line uid ≠ beginLine := by
  intro h
  rw [auth_external_line, authExternalPrefixBytes] at h
  simp [beginLine] at h

/-- C5.  When the peer's first `\r\n`-terminated response line does not
begin with `"OK "`, both authentication mechanisms fail with
`AuthFailed` and the literal line `BEGIN\r\n` is never among the bytes
written to the transport. -/
theorem c5_auth_no_ok_no_begin (uid : Nat) (input resp rest : List Nat)
    (hline : read_line input = .ok (resp, rest))
    (hnok : startsWithOK resp = false) :
    (auth_external uid input).result = .error Error.AuthFailed ∧
    beginLine ∉ (auth_external uid input).writes ∧
    (auth_anonymous input).result = .error Error.AuthFailed ∧
    beginLine ∉ (auth_anonymous input).writes := by
  simp only [auth_external, auth_anonymous, hline, hnok]
  refine ⟨rfl, ?_, rfl, ?_⟩
  · show beginLine ∉ [auth_external_line uid]
    simp only [List.mem_singleton]
    exact fun hh => auth_external_line_ne_begin uid hh.symm
  · show beginLine ∉ [anonymousAuthLine]
    simp only [List.mem_singleton]
    intro hh
    exact absurd hh.symm (by decide)

/-- C5 witness: a `REJECTED` response line triggers `AuthFailed` with no
`BEGIN` written. -/
theorem c5_auth_no_ok_no_begin_witness :
    read_line (bytesOfAscii "REJECTED\r\n") = .ok (bytesOfAscii "REJECTED\r\n", []) ∧
    startsWithOK (bytesOfAscii "REJECTED\r\n") = false ∧
    (auth_external 1000 (bytesOfAscii "REJECTED\r\n")).result = .error Error.AuthFailed ∧
    beginLine ∉ (auth_external 1000 (bytesOfAscii "REJECTED\r\n")).writes := by
  have h := c5_auth_no_ok_no_begin 1000 (bytesOfAscii "REJECTED\r\n")
    (bytesOfAscii "REJECTED\r\n") [] (by decide) (by decide)
  exact ⟨by decide, by decide, h.1, h.2.1⟩

/-- C6, counterexample.  The claim says end-of-stream before a `\r\n`
terminator fails with the same kind as a rejected mechanism
(`AuthFailed`); but `read_line` reports end-of-stream as `Disconnected`
and the auth functions propagate it unchanged, so with an empty peer
stream `auth_external` fails with `Disconnected`, not `AuthFailed`. -/
theorem c6_eof_not_authfailed_counterexample :
    (auth_external 0 []).result = .error Error.Disconnected ∧
    (auth_external 0 []).result ≠ .error Error.AuthFailed := by decide

/-- C6, amended.  If the transport reaches end-of-stream before a
`\r\n` terminator is seen, the handshake fails — but with
`Error::Disconnected` (the short-read kind), not with the
`Error::AuthFailed` kind used for a rejected mechanism. -/
theorem c6_eof_disconnected (uid : Nat) (input : List Nat)
    (h : read_line input = .error Error.Disconnected) :
    (auth_external uid input).result = .error Error.Disconnected ∧
    (auth_anonymous input).result = .error Error.Disconnected := by
  simp [auth_external, auth_anonymous, h]

/-- C6 witness: a stream holding only `"OK"` (no terminator) makes both
mechanisms fail with `Disconnected`. -/
theorem c6_eof_disconnected_witness :
    read_line [79, 75] = .error Error.Disconnected ∧
    (auth_external 0 [79, 75]).result = .error Error.Disconnected ∧
    (auth_anonymous [79, 75]).result = .error Error.Disconnected :=
  ⟨by decide, c6_eof_disconnected 0 [79, 75] (by decide)⟩

/-- C7.  The alignment-padding step of the frame reader, entered with
the header section ended at wire offset `off`, consumes exactly
`(8 − off % 8) % 8` bytes of the stream — in particular zero bytes when
`off` is already a multiple of 8 — and the header-fields demarshal it
follows always ends at offset `16 + arrLen`, the end of the array
payload. -/
theorem c7_padding (off : Nat) (s : List Nat) (h : (8 - off % 8) % 8 ≤ s.length) :
    padStep off s = .ok (s.drop ((8 - off % 8) % 8)) ∧
    (∀ (buf : List Nat) (arrLen o : Nat) (fields : List (Nat × Value)) (fo : Nat),
      readU32Buf buf 12 = .ok (arrLen, o) →
      demarshalHeaderFields buf = .ok (fields, fo) →
      fo = 16 + arrLen) := by
  constructor
  · exact padStep_consumes off s h
  · intro buf arrLen o fields fo h1 h2
    unfold demarshalHeaderFields at h2
    rw [h1] at h2
    simp only at h2
    rcases hpe : parseElems buf (alignTo o 8 + arrLen) (arrLen + 1) (alignTo o 8)
      with e | ⟨fields2, fo2⟩
    · rw [hpe] at h2; cases h2
    · rw [hpe] at h2
      simp only at h2
      split at h2
      · next heq =>
          injection h2 with h3
          injection h3 with h4 h5
          omega
      · cases h2

/-- C7 witness: at offset 21 the padding step consumes exactly
3 = (8 − 21 mod 8) mod 8 bytes. -/
theorem c7_padding_witness :
    (8 - 21 % 8) % 8 ≤ ([1, 2, 3] : List Nat).length ∧
    padStep 21 [1, 2, 3] = .ok [] :=
  ⟨by decide, (c7_padding 21 [1, 2, 3] (by decide)).1⟩

/-- C10 witness: the requeued copy of `msgNoMatch` has no `ReplySerial`
header but keeps its body. -/
theorem c10_strip_replyserial_witness :
    call_sync_recv 9 ⟨[msgNoMatch, msgReply], []⟩ =
      .ok (msgReply.body, ⟨[stripReplySerial msgNoMatch], []⟩) ∧
    hmGet (stripReplySerial msgNoMatch).headers replySerialCode = none ∧
    (stripReplySerial msgNoMatch).body = msgNoMatch.body := by
  have h := c10_strip_replyserial 9 ⟨[msgNoMatch, msgReply], []⟩ [msgNoMatch] msgReply []
    rfl (by decide) (by decide)
  exact ⟨h.1, (h.2 msgNoMatch (by simp)).1 (by decide),
    (h.2 msgNoMatch (by simp)).2.2.2.2.2.2.2⟩

end DbusBytestream
